import Mathlib

/-!
Verification development for the Coral Markets Discord bot
(subscription / notification fan-out engine).

The Go source is embedded shallowly:
* `time.Time` / `time.Duration` values are integers counting seconds;
  functions that read the current clock (`time.Since`, `time.Until`)
  take an explicit `now` argument.
* `float64` fields that the bot only compares and formats
  (percentages, volume, amounts) are embedded as `Rat`.
* Go maps are embedded as association lists with map update semantics.
* Go's `(value, error)` returns are embedded as `Except String`;
  the in-memory repository returns `nil` errors everywhere, which the
  embedding renders as `.ok`.
* `crypto/rand.Read` is embedded by passing the outcome of the read
  (the bytes, or a failure) as an explicit argument.
-/

/-- Market entity (`internal/models`, `Market` struct). -/
structure Market where
  id : String
  title : String
  description : String
  outcomes : List String
  percentages : List Rat
  category : String
  creator : String
  volume : Rat
  startTime : Int
  endTime : Int
  status : String
  resolvedOutcome : String
  link : String
deriving Repr, DecidableEq

/-- Per-user subscription record (`internal/models`, `Subscription` struct). -/
structure Subscription where
  discordUserID : String
  subscribedMarkets : List String
  subscribedCreators : List String
deriving Repr, DecidableEq

/-- Channel feed configuration (`internal/models/channel_config.go`). -/
structure ChannelConfig where
  channelID : String
  feedEnabled : Bool
  allowedCategories : List String
  frequencyMode : String
  lastUpdateTimestamp : Int
deriving Repr, DecidableEq

/-- Webhook registration (`internal/models/webhook_registration.go`). -/
structure WebhookRegistration where
  id : String
  channelID : String
  webhookURL : String
  events : List String
  frequency : String
  allowedCategories : List String
  createdAt : Int
deriving Repr, DecidableEq

/-- ShouldNotifyUser (`subscription_service.go`): the two membership loops,
returning true on the first market-id or creator match. -/
def ShouldNotifyUser (subscription : Subscription) (market : Market) : Bool :=
  subscription.subscribedMarkets.any (fun marketID => marketID == market.id) ||
  subscription.subscribedCreators.any (fun creator => creator == market.creator)

/-- ShouldSendUpdate (`market_service.go`): cadence decision.  `now` stands for
the current clock read by `time.Since` / `time.Until`; all durations are in
seconds. -/
def ShouldSendUpdate (now : Int) (market : Market) (frequency : String)
    (lastUpdate : Int) : Bool :=
  if market.status ≠ "active" then false
  else
    let timeSinceLastUpdate := now - lastUpdate
    let timeLeft := market.endTime - now
    if timeLeft < 6 * 3600 then decide (15 * 60 ≤ timeSinceLastUpdate)
    else if frequency = "high" then decide (30 * 60 ≤ timeSinceLastUpdate)
    else if frequency = "medium" then decide (3600 ≤ timeSinceLastUpdate)
    else if frequency = "low" then decide (3 * 3600 ≤ timeSinceLastUpdate)
    else decide (3600 ≤ timeSinceLastUpdate)

/-- Modelled from the spec: the tier threshold table of section 4.2
(high → 30 minutes, medium → 1 hour, low → 3 hours, unrecognized → medium),
in seconds; used to compare the code's cadence decision against the spec. -/
def specTierThreshold (frequency : String) : Int :=
  if frequency = "high" then 30 * 60
  else if frequency = "medium" then 3600
  else if frequency = "low" then 3 * 3600
  else 3600

/-- C1: `ShouldNotifyUser(S, M)` is true iff M's identifier is in S's
subscribed-market list or M's creator is in S's subscribed-creator list;
otherwise it is false.  (The function is pure by construction.) -/
theorem shouldNotifyUser_iff_mem (subscription : Subscription) (market : Market) :
    ShouldNotifyUser subscription market = true ↔
      market.id ∈ subscription.subscribedMarkets ∨
      market.creator ∈ subscription.subscribedCreators := by
  simp only [ShouldNotifyUser, Bool.or_eq_true, List.any_eq_true, beq_iff_eq]
  constructor
  · rintro (⟨x, hx, rfl⟩ | ⟨x, hx, rfl⟩)
    · exact Or.inl hx
    · exact Or.inr hx
  · rintro (h | h)
    · exact Or.inl ⟨market.id, h, rfl⟩
    · exact Or.inr ⟨market.creator, h, rfl⟩

/-- C2: `ShouldSendUpdate` returns false whenever the market status is not
"active"; otherwise, with under 6 hours remaining until the end time it is
true exactly when at least 15 minutes have elapsed since the last update;
otherwise it is true exactly when the elapsed time reaches the tier
threshold (high → 30 min, medium → 1 h, low → 3 h, other → 1 h). -/
theorem shouldSendUpdate_cases (now lastUpdate : Int) (market : Market)
    (frequency : String) :
    (market.status ≠ "active" →
      ShouldSendUpdate now market frequency lastUpdate = false) ∧
    (market.status = "active" → market.endTime - now < 6 * 3600 →
      (ShouldSendUpdate now market frequency lastUpdate = true ↔
        15 * 60 ≤ now - lastUpdate)) ∧
    (market.status = "active" → 6 * 3600 ≤ market.endTime - now →
      (ShouldSendUpdate now market frequency lastUpdate = true ↔
        specTierThreshold frequency ≤ now - lastUpdate)) := by
  refine ⟨fun hs => ?_, fun hs hlt => ?_, fun hs hge => ?_⟩
  · simp [ShouldSendUpdate, hs]
  · simp [ShouldSendUpdate, hs, hlt]
    intro hge
    omega
  · have hnlt : ¬(market.endTime - now < 6 * 3600) := not_lt.mpr hge
    by_cases hh : frequency = "high"
    · simp [ShouldSendUpdate, specTierThreshold, hs, hnlt, hh]
      omega
    · by_cases hm : frequency = "medium"
      · simp [ShouldSendUpdate, specTierThreshold, hs, hnlt, hh, hm]
        omega
      · by_cases hl : frequency = "low"
        · simp [ShouldSendUpdate, specTierThreshold, hs, hnlt, hh, hm, hl]
          omega
        · simp [ShouldSendUpdate, specTierThreshold, hs, hnlt, hh, hm, hl]
          omega

/-- C2 witness: a concrete active market 3 hours from its end, frequency
"high", last update 20 minutes ago — the closing-soon override applies and
the update is sent. -/
theorem shouldSendUpdate_cases_witness :
    ShouldSendUpdate 0
      { id := "m1", title := "t", description := "d", outcomes := [],
        percentages := [], category := "c", creator := "u", volume := 0,
        startTime := -3600, endTime := 3 * 3600, status := "active",
        resolvedOutcome := "", link := "" } "high" (-(20 * 60)) = true := by
  have h := (shouldSendUpdate_cases 0 (-(20 * 60))
    { id := "m1", title := "t", description := "d", outcomes := [],
      percentages := [], category := "c", creator := "u", volume := 0,
      startTime := -3600, endTime := 3 * 3600, status := "active",
      resolvedOutcome := "", link := "" } "high").2.1 rfl (by decide)
  exact h.mpr (by decide)

/-- In-memory repository state (`subscription_repository.go`,
`InMemorySubscriptionRepository`): the three Go maps, embedded as
association lists with map update semantics. -/
structure RepoState where
  subscriptions : List (String × Subscription)
  channels : List (String × ChannelConfig)
  webhooks : List (String × WebhookRegistration)
deriving Repr, DecidableEq

/-- `NewInMemorySubscriptionRepository`: three empty maps. -/
def NewInMemorySubscriptionRepository : RepoState :=
  { subscriptions := [], channels := [], webhooks := [] }

/-- Go map read `m[k]` returning `(value, exists)`. -/
def lookupA {α : Type} : List (String × α) → String → Option α
  | [], _ => none
  | (k, v) :: rest, key => if k = key then some v else lookupA rest key

/-- Go map write `m[k] = v`: replace the binding of `k`, or add it. -/
def insertA {α : Type} : List (String × α) → String → α → List (String × α)
  | [], key, v => [(key, v)]
  | (k, w) :: rest, key, v =>
    if k = key then (key, v) :: rest else (k, w) :: insertA rest key v

/-- Go map `delete(m, k)`. -/
def eraseA {α : Type} (l : List (String × α)) (key : String) :
    List (String × α) :=
  l.filter (fun p => p.1 != key)

namespace Repository

/-- `GetSubscription`: the stored record, or a freshly-initialized empty one
for unknown users; the error is always nil. -/
def GetSubscription (st : RepoState) (discordUserID : String) :
    Except String Subscription :=
  match lookupA st.subscriptions discordUserID with
  | none => .ok { discordUserID := discordUserID, subscribedMarkets := [],
                  subscribedCreators := [] }
  | some subscription => .ok subscription

/-- `SaveSubscription`: upsert keyed by the record's Discord user id. -/
def SaveSubscription (st : RepoState) (subscription : Subscription) :
    Except String RepoState :=
  .ok { st with subscriptions :=
          insertA st.subscriptions subscription.discordUserID subscription }

/-- `GetAllSubscriptions`: all stored records. -/
def GetAllSubscriptions (st : RepoState) : Except String (List Subscription) :=
  .ok (st.subscriptions.map (fun p => p.2))

/-- `GetChannelConfig`: the stored config, or the default one (feed enabled,
no category restriction, medium frequency, zero last-update time). -/
def GetChannelConfig (st : RepoState) (channelID : String) :
    Except String ChannelConfig :=
  match lookupA st.channels channelID with
  | none => .ok { channelID := channelID, feedEnabled := true,
                  allowedCategories := [], frequencyMode := "medium",
                  lastUpdateTimestamp := 0 }
  | some config => .ok config

/-- `SaveChannelConfig`: upsert keyed by channel id. -/
def SaveChannelConfig (st : RepoState) (config : ChannelConfig) :
    Except String RepoState :=
  .ok { st with channels := insertA st.channels config.channelID config }

/-- `GetAllChannelConfigs`: all stored configs. -/
def GetAllChannelConfigs (st : RepoState) :
    Except String (List ChannelConfig) :=
  .ok (st.channels.map (fun p => p.2))

/-- `SaveWebhookRegistration`: upsert keyed by the registration's id. -/
def SaveWebhookRegistration (st : RepoState)
    (registration : WebhookRegistration) : Except String RepoState :=
  .ok { st with webhooks := insertA st.webhooks registration.id registration }

/-- `GetWebhookRegistration`: `(nil, nil)` for a missing id — an explicit
not-found value with nil error. -/
def GetWebhookRegistration (st : RepoState) (id : String) :
    Except String (Option WebhookRegistration) :=
  match lookupA st.webhooks id with
  | none => .ok none
  | some registration => .ok (some registration)

/-- `DeleteWebhookRegistration`: remove the binding of the id. -/
def DeleteWebhookRegistration (st : RepoState) (id : String) :
    Except String RepoState :=
  .ok { st with webhooks := eraseA st.webhooks id }

/-- `GetAllWebhookRegistrations`: all stored registrations. -/
def GetAllWebhookRegistrations (st : RepoState) :
    Except String (List WebhookRegistration) :=
  .ok (st.webhooks.map (fun p => p.2))

end Repository

/-- `SubscribeToMarket` (`subscription_service.go`): fetch the record, return
early if the market id is already present, otherwise append and save. -/
def SubscribeToMarket (st : RepoState) (discordUserID marketID : String) :
    Except String RepoState :=
  match Repository.GetSubscription st discordUserID with
  | .error e => .error ("failed to get subscription: " ++ e)
  | .ok subscription =>
    if subscription.subscribedMarkets.any (fun id => id == marketID) then
      .ok st
    else
      Repository.SaveSubscription st
        { subscription with
          subscribedMarkets := subscription.subscribedMarkets ++ [marketID] }

/-- `UnsubscribeFromMarket`: fetch, keep every id different from the target,
save. -/
def UnsubscribeFromMarket (st : RepoState) (discordUserID marketID : String) :
    Except String RepoState :=
  match Repository.GetSubscription st discordUserID with
  | .error e => .error ("failed to get subscription: " ++ e)
  | .ok subscription =>
    Repository.SaveSubscription st
      { subscription with
        subscribedMarkets :=
          subscription.subscribedMarkets.filter (fun id => id != marketID) }

/-- `SubscribeToCreator`: fetch, return early if the creator is already
present, otherwise append and save. -/
def SubscribeToCreator (st : RepoState) (discordUserID creator : String) :
    Except String RepoState :=
  match Repository.GetSubscription st discordUserID with
  | .error e => .error ("failed to get subscription: " ++ e)
  | .ok subscription =>
    if subscription.subscribedCreators.any (fun c => c == creator) then
      .ok st
    else
      Repository.SaveSubscription st
        { subscription with
          subscribedCreators := subscription.subscribedCreators ++ [creator] }

/-- `UnsubscribeFromCreator`: fetch, keep every creator different from the
target, save. -/
def UnsubscribeFromCreator (st : RepoState) (discordUserID creator : String) :
    Except String RepoState :=
  match Repository.GetSubscription st discordUserID with
  | .error e => .error ("failed to get subscription: " ++ e)
  | .ok subscription =>
    Repository.SaveSubscription st
      { subscription with
        subscribedCreators :=
          subscription.subscribedCreators.filter (fun c => c != creator) }

/-- The subscriber record a caller observes for a user through
`GetSubscription`: the stored record, or a fresh empty one. -/
def subAt (st : RepoState) (discordUserID : String) : Subscription :=
  match lookupA st.subscriptions discordUserID with
  | none => { discordUserID := discordUserID, subscribedMarkets := [],
              subscribedCreators := [] }
  | some subscription => subscription

theorem lookupA_insertA_self {α : Type} (l : List (String × α)) (k : String)
    (v : α) : lookupA (insertA l k v) k = some v := by
  induction l with
  | nil => simp [insertA, lookupA]
  | cons p rest ih =>
    obtain ⟨k', w⟩ := p
    by_cases h : k' = k
    · simp [insertA, lookupA, h]
    · simp [insertA, lookupA, h, ih]

theorem lookupA_insertA_ne {α : Type} (l : List (String × α)) (k key : String)
    (v : α) (h : k ≠ key) :
    lookupA (insertA l k v) key = lookupA l key := by
  induction l with
  | nil => simp [insertA, lookupA, h]
  | cons p rest ih =>
    obtain ⟨k', w⟩ := p
    by_cases hk : k' = k
    · subst hk
      simp [insertA, lookupA, h]
    · by_cases hkey : k' = key
      · subst hkey
        simp [insertA, lookupA, hk]
      · simp [insertA, lookupA, hk, hkey, ih]

theorem getSubscription_eq (st : RepoState) (u : String) :
    Repository.GetSubscription st u = .ok (subAt st u) := by
  unfold Repository.GetSubscription subAt
  cases lookupA st.subscriptions u <;> rfl

theorem subAt_insert (st : RepoState) (k : String) (s : Subscription)
    (u : String) :
    subAt { st with subscriptions := insertA st.subscriptions k s } u
      = if k = u then s else subAt st u := by
  by_cases h : k = u
  · subst h
    simp [subAt, lookupA_insertA_self]
  · simp [subAt, lookupA_insertA_ne st.subscriptions k u s h, h]

theorem filter_bne_of_not_mem (l : List String) (x : String) (h : x ∉ l) :
    l.filter (fun a => a != x) = l := by
  induction l with
  | nil => rfl
  | cons a rest ih =>
    have hax : a ≠ x := fun e => h (e ▸ List.mem_cons_self a rest)
    have hrest : x ∉ rest := fun hx => h (List.mem_cons_of_mem a hx)
    have h1 : (a != x) = true := by simpa [bne_iff_ne] using hax
    simp [List.filter_cons, h1, ih hrest]

/-- C5: subscribing to a market id already in the user's list leaves the
state unchanged (idempotence); unsubscribing a non-member id leaves the
observed market list unchanged; and the analogous properties hold for
creators. -/
theorem subscribe_unsubscribe_idempotent (st : RepoState) (u x : String) :
    (x ∈ (subAt st u).subscribedMarkets →
      SubscribeToMarket st u x = .ok st) ∧
    (x ∉ (subAt st u).subscribedMarkets → ∀ st',
      UnsubscribeFromMarket st u x = .ok st' →
      (subAt st' u).subscribedMarkets = (subAt st u).subscribedMarkets) ∧
    (x ∈ (subAt st u).subscribedCreators →
      SubscribeToCreator st u x = .ok st) ∧
    (x ∉ (subAt st u).subscribedCreators → ∀ st',
      UnsubscribeFromCreator st u x = .ok st' →
      (subAt st' u).subscribedCreators = (subAt st u).subscribedCreators) := by
  refine ⟨fun hmem => ?_, fun hnot st' hok => ?_, fun hmem => ?_,
    fun hnot st' hok => ?_⟩
  · unfold SubscribeToMarket
    rw [getSubscription_eq]
    have hany : (subAt st u).subscribedMarkets.any (fun id => id == x) = true := by
      simp only [List.any_eq_true, beq_iff_eq]
      exact ⟨x, hmem, rfl⟩
    simp [hany]
  · unfold UnsubscribeFromMarket at hok
    rw [getSubscription_eq] at hok
    simp only [Repository.SaveSubscription, Except.ok.injEq] at hok
    subst hok
    rw [subAt_insert]
    by_cases hu : (subAt st u).discordUserID = u
    · simp [hu, filter_bne_of_not_mem _ _ hnot]
    · simp [hu]
  · unfold SubscribeToCreator
    rw [getSubscription_eq]
    have hany : (subAt st u).subscribedCreators.any (fun c => c == x) = true := by
      simp only [List.any_eq_true, beq_iff_eq]
      exact ⟨x, hmem, rfl⟩
    simp [hany]
  · unfold UnsubscribeFromCreator at hok
    rw [getSubscription_eq] at hok
    simp only [Repository.SaveSubscription, Except.ok.injEq] at hok
    subst hok
    rw [subAt_insert]
    by_cases hu : (subAt st u).discordUserID = u
    · simp [hu, filter_bne_of_not_mem _ _ hnot]
    · simp [hu]

/-- A concrete repository state with one subscriber ("alice", markets
["m1"], creators ["c1"]); used by witnesses. -/
def sampleState : RepoState :=
  { subscriptions :=
      [("alice", { discordUserID := "alice", subscribedMarkets := ["m1"],
                   subscribedCreators := ["c1"] })],
    channels := [], webhooks := [] }

/-- C5 witness: on the concrete state, re-subscribing to "m1" is a no-op,
unsubscribing the non-member "m2" leaves the market list unchanged, and
the same for creators "c1" / "c2". -/
theorem subscribe_unsubscribe_idempotent_witness :
    ("m1" ∈ (subAt sampleState "alice").subscribedMarkets ∧
      SubscribeToMarket sampleState "alice" "m1" = .ok sampleState) ∧
    ("m2" ∉ (subAt sampleState "alice").subscribedMarkets ∧
      (subAt sampleState "alice").subscribedMarkets =
        (subAt sampleState "alice").subscribedMarkets) ∧
    ("c1" ∈ (subAt sampleState "alice").subscribedCreators ∧
      SubscribeToCreator sampleState "alice" "c1" = .ok sampleState) ∧
    ("c2" ∉ (subAt sampleState "alice").subscribedCreators ∧
      (subAt sampleState "alice").subscribedCreators =
        (subAt sampleState "alice").subscribedCreators) :=
  ⟨⟨by decide,
    (subscribe_unsubscribe_idempotent sampleState "alice" "m1").1 (by decide)⟩,
   ⟨by decide,
    (subscribe_unsubscribe_idempotent sampleState "alice" "m2").2.1 (by decide)
      sampleState rfl⟩,
   ⟨by decide,
    (subscribe_unsubscribe_idempotent sampleState "alice" "c1").2.2.1
      (by decide)⟩,
   ⟨by decide,
    (subscribe_unsubscribe_idempotent sampleState "alice" "c2").2.2.2
      (by decide) sampleState rfl⟩⟩

/-- C10: each subscription operation touches only its own set — the market
operations leave the observed creator list and user identifier unchanged,
and the creator operations leave the observed market list and user
identifier unchanged. -/
theorem subscription_ops_frame (st : RepoState) (u x : String) :
    (∀ st', SubscribeToMarket st u x = .ok st' →
      (subAt st' u).subscribedCreators = (subAt st u).subscribedCreators ∧
      (subAt st' u).discordUserID = (subAt st u).discordUserID) ∧
    (∀ st', UnsubscribeFromMarket st u x = .ok st' →
      (subAt st' u).subscribedCreators = (subAt st u).subscribedCreators ∧
      (subAt st' u).discordUserID = (subAt st u).discordUserID) ∧
    (∀ st', SubscribeToCreator st u x = .ok st' →
      (subAt st' u).subscribedMarkets = (subAt st u).subscribedMarkets ∧
      (subAt st' u).discordUserID = (subAt st u).discordUserID) ∧
    (∀ st', UnsubscribeFromCreator st u x = .ok st' →
      (subAt st' u).subscribedMarkets = (subAt st u).subscribedMarkets ∧
      (subAt st' u).discordUserID = (subAt st u).discordUserID) := by
  refine ⟨fun st' hok => ?_, fun st' hok => ?_, fun st' hok => ?_,
    fun st' hok => ?_⟩
  · unfold SubscribeToMarket at hok
    rw [getSubscription_eq] at hok
    by_cases hmem : (subAt st u).subscribedMarkets.any (fun id => id == x) = true
    · simp only [hmem, if_true, Except.ok.injEq] at hok
      subst hok
      exact ⟨rfl, rfl⟩
    · simp only [hmem, Bool.false_eq_true, if_false, Repository.SaveSubscription,
        Except.ok.injEq] at hok
      subst hok
      rw [subAt_insert]
      by_cases hu : (subAt st u).discordUserID = u <;> simp [hu]
  · unfold UnsubscribeFromMarket at hok
    rw [getSubscription_eq] at hok
    simp only [Repository.SaveSubscription, Except.ok.injEq] at hok
    subst hok
    rw [subAt_insert]
    by_cases hu : (subAt st u).discordUserID = u <;> simp [hu]
  · unfold SubscribeToCreator at hok
    rw [getSubscription_eq] at hok
    by_cases hmem : (subAt st u).subscribedCreators.any (fun c => c == x) = true
    · simp only [hmem, if_true, Except.ok.injEq] at hok
      subst hok
      exact ⟨rfl, rfl⟩
    · simp only [hmem, Bool.false_eq_true, if_false, Repository.SaveSubscription,
        Except.ok.injEq] at hok
      subst hok
      rw [subAt_insert]
      by_cases hu : (subAt st u).discordUserID = u <;> simp [hu]
  · unfold UnsubscribeFromCreator at hok
    rw [getSubscription_eq] at hok
    simp only [Repository.SaveSubscription, Except.ok.injEq] at hok
    subst hok
    rw [subAt_insert]
    by_cases hu : (subAt st u).discordUserID = u <;> simp [hu]

/-- C10 witness: on the concrete state, each of the four operations applied
to "alice" preserves the untouched set and the user identifier. -/
theorem subscription_ops_frame_witness :
    ((subAt sampleState "alice").subscribedCreators =
        (subAt sampleState "alice").subscribedCreators ∧
      (subAt sampleState "alice").discordUserID =
        (subAt sampleState "alice").discordUserID) ∧
    ((subAt sampleState "alice").subscribedMarkets =
        (subAt sampleState "alice").subscribedMarkets ∧
      (subAt sampleState "alice").discordUserID =
        (subAt sampleState "alice").discordUserID) :=
  ⟨(subscription_ops_frame sampleState "alice" "m1").1 sampleState rfl,
   (subscription_ops_frame sampleState "alice" "c1").2.2.1 sampleState rfl⟩

/-- C7: unknown-key lookups never error — an unknown user id yields a fresh
empty record with nil error, an unknown channel id yields the default
config with nil error, and an unknown webhook-registration id yields the
explicit not-found value (nil pointer) with nil error. -/
theorem lookup_unknown_defaults (st : RepoState) (u c i : String) :
    (lookupA st.subscriptions u = none →
      Repository.GetSubscription st u =
        .ok { discordUserID := u, subscribedMarkets := [],
              subscribedCreators := [] }) ∧
    (lookupA st.channels c = none →
      Repository.GetChannelConfig st c =
        .ok { channelID := c, feedEnabled := true, allowedCategories := [],
              frequencyMode := "medium", lastUpdateTimestamp := 0 }) ∧
    (lookupA st.webhooks i = none →
      Repository.GetWebhookRegistration st i = .ok none) := by
  refine ⟨fun h => ?_, fun h => ?_, fun h => ?_⟩
  · unfold Repository.GetSubscription
    rw [h]
  · unfold Repository.GetChannelConfig
    rw [h]
  · unfold Repository.GetWebhookRegistration
    rw [h]

/-- C7 witness: on the empty repository, all three unknown-key lookups
return their defaults. -/
theorem lookup_unknown_defaults_witness :
    Repository.GetSubscription NewInMemorySubscriptionRepository "u" =
      .ok { discordUserID := "u", subscribedMarkets := [],
            subscribedCreators := [] } ∧
    Repository.GetChannelConfig NewInMemorySubscriptionRepository "c" =
      .ok { channelID := "c", feedEnabled := true, allowedCategories := [],
            frequencyMode := "medium", lastUpdateTimestamp := 0 } ∧
    Repository.GetWebhookRegistration NewInMemorySubscriptionRepository "w" =
      .ok none :=
  ⟨(lookup_unknown_defaults NewInMemorySubscriptionRepository "u" "c" "w").1 rfl,
   (lookup_unknown_defaults NewInMemorySubscriptionRepository "u" "c" "w").2.1 rfl,
   (lookup_unknown_defaults NewInMemorySubscriptionRepository "u" "c" "w").2.2 rfl⟩

/-- The Discord session collaborator used by the webhook handler
(`webhook_handler.go`): `ChannelMessageSend` may fail, `UserChannelCreate`
may fail.  Failure patterns are arbitrary, which models any combination of
delivery errors. -/
structure Session where
  channelSend : String → String → Bool
  userChannelCreate : String → Option String

/-- Observable delivery events of a fan-out pass. -/
inductive DeliveryEvent where
  | channelSendOk (channelID : String)
  | channelSendFailed (channelID : String)
  | dmChannelCreateFailed (userID : String)
  | dmSendOk (userID : String)
  | dmSendFailed (userID : String)
deriving Repr, DecidableEq

/-- The loop of `sendToSubscribedChannels` (`webhook_handler.go`) over the
channel configs: skip when the feed is disabled; skip when the non-empty
allowed-category set lacks the market's category; otherwise attempt the
send — a failed send is only logged and the loop continues. -/
def channelPassLoop (sess : Session) (message : String) (market : Market) :
    List ChannelConfig → List DeliveryEvent
  | [] => []
  | channelConfig :: rest =>
    if !channelConfig.feedEnabled then
      channelPassLoop sess message market rest
    else if decide (0 < channelConfig.allowedCategories.length) &&
        !(channelConfig.allowedCategories.any
            (fun category => category == market.category)) then
      channelPassLoop sess message market rest
    else
      (if sess.channelSend channelConfig.channelID message then
        DeliveryEvent.channelSendOk channelConfig.channelID
      else
        DeliveryEvent.channelSendFailed channelConfig.channelID) ::
        channelPassLoop sess message market rest

/-- `sendToSubscribedChannels`: fetch all channel configs, then run the
delivery loop. -/
def sendToSubscribedChannels (sess : Session) (st : RepoState)
    (message : String) (market : Market) : List DeliveryEvent :=
  match Repository.GetAllChannelConfigs st with
  | .error _ => []
  | .ok channels => channelPassLoop sess message market channels

/-- The loop of `sendToSubscribedUsers`: skip users for whom
`ShouldNotifyUser` is false; otherwise create the DM channel (a failure is
logged and the loop continues with the next user) and attempt the send (a
failure is only logged). -/
def userPassLoop (sess : Session) (message : String) (market : Market) :
    List Subscription → List DeliveryEvent
  | [] => []
  | subscription :: rest =>
    if !(ShouldNotifyUser subscription market) then
      userPassLoop sess message market rest
    else
      match sess.userChannelCreate subscription.discordUserID with
      | none =>
        DeliveryEvent.dmChannelCreateFailed subscription.discordUserID ::
          userPassLoop sess message market rest
      | some dmChannel =>
        (if sess.channelSend dmChannel message then
          DeliveryEvent.dmSendOk subscription.discordUserID
        else
          DeliveryEvent.dmSendFailed subscription.discordUserID) ::
          userPassLoop sess message market rest

/-- `sendToSubscribedUsers`: fetch all subscriptions, then run the delivery
loop. -/
def sendToSubscribedUsers (sess : Session) (st : RepoState)
    (message : String) (market : Market) : List DeliveryEvent :=
  match Repository.GetAllSubscriptions st with
  | .error _ => []
  | .ok subscriptions => userPassLoop sess message market subscriptions

/-- The channels that received a delivery attempt in an event log. -/
def channelTargets : List DeliveryEvent → List String
  | [] => []
  | .channelSendOk c :: rest => c :: channelTargets rest
  | .channelSendFailed c :: rest => c :: channelTargets rest
  | .dmChannelCreateFailed _ :: rest => channelTargets rest
  | .dmSendOk _ :: rest => channelTargets rest
  | .dmSendFailed _ :: rest => channelTargets rest

/-- The users that received a delivery attempt in an event log. -/
def userTargets : List DeliveryEvent → List String
  | [] => []
  | .channelSendOk _ :: rest => userTargets rest
  | .channelSendFailed _ :: rest => userTargets rest
  | .dmChannelCreateFailed u :: rest => u :: userTargets rest
  | .dmSendOk u :: rest => u :: userTargets rest
  | .dmSendFailed u :: rest => u :: userTargets rest

/-- Modelled from the spec: a channel is eligible when its feed is enabled
and its allowed-category set is empty or holds the market's category. -/
def specChannelEligible (config : ChannelConfig) (market : Market) : Bool :=
  config.feedEnabled &&
    (config.allowedCategories.isEmpty ||
      config.allowedCategories.any
        (fun category => category == market.category))

theorem channelTargets_loop (sess : Session) (message : String)
    (market : Market) (l : List ChannelConfig) :
    channelTargets (channelPassLoop sess message market l) =
      (l.filter (fun config => specChannelEligible config market)).map
        (fun config => config.channelID) := by
  induction l with
  | nil => rfl
  | cons c rest ih =>
    cases hf : c.feedEnabled with
    | false => simp [channelPassLoop, specChannelEligible, hf, ih]
    | true =>
      cases hl : c.allowedCategories with
      | nil =>
        cases hsend : sess.channelSend c.channelID message <;>
          simp [channelPassLoop, specChannelEligible, channelTargets, hf, hl,
            hsend, ih]
      | cons a as =>
        cases hcat : (a :: as).any (fun category => category == market.category) with
        | false =>
          simp [channelPassLoop, specChannelEligible, hf, hl, hcat, ih]
        | true =>
          cases hsend : sess.channelSend c.channelID message <;>
            simp [channelPassLoop, specChannelEligible, channelTargets, hf,
              hl, hcat, hsend, ih]

theorem userTargets_loop (sess : Session) (message : String) (market : Market)
    (l : List Subscription) :
    userTargets (userPassLoop sess message market l) =
      (l.filter (fun subscription => ShouldNotifyUser subscription market)).map
        (fun subscription => subscription.discordUserID) := by
  induction l with
  | nil => rfl
  | cons s rest ih =>
    cases hn : ShouldNotifyUser s market with
    | false => simp [userPassLoop, hn, ih]
    | true =>
      cases hc : sess.userChannelCreate s.discordUserID with
      | none => simp [userPassLoop, userTargets, hn, hc, ih]
      | some dmChannel =>
        cases hsend : sess.channelSend dmChannel message <;>
          simp [userPassLoop, userTargets, hn, hc, hsend, ih]

/-- C3: for every failure pattern of the delivery collaborator, the channel
pass attempts delivery to exactly the eligible channels and the user pass
attempts delivery to exactly the eligible users — the attempted target
sets do not depend on which deliveries fail, so a failed delivery never
aborts the remainder of either pass. -/
theorem dispatch_attempts_complete (sess : Session) (st : RepoState)
    (message : String) (market : Market) :
    channelTargets (sendToSubscribedChannels sess st message market) =
      ((st.channels.map (fun p => p.2)).filter
        (fun config => specChannelEligible config market)).map
        (fun config => config.channelID) ∧
    userTargets (sendToSubscribedUsers sess st message market) =
      ((st.subscriptions.map (fun p => p.2)).filter
        (fun subscription => ShouldNotifyUser subscription market)).map
        (fun subscription => subscription.discordUserID) := by
  refine ⟨?_, ?_⟩
  · have h := channelTargets_loop sess message market
      (st.channels.map (fun p => p.2))
    exact h
  · have h := userTargets_loop sess message market
      (st.subscriptions.map (fun p => p.2))
    exact h

/-- C4: in the channel pass, a config with a disabled feed is skipped; a
config whose non-empty allowed-category set lacks the market's category is
skipped; in every other case (in particular whenever the allowed-category
set is empty) the message delivery to the channel is attempted.  The pass
processes configs element-wise (it distributes over list append). -/
theorem channelPass_filter_cases (sess : Session) (message : String)
    (market : Market) (config : ChannelConfig) :
    (config.feedEnabled = false →
      channelPassLoop sess message market [config] = []) ∧
    (config.feedEnabled = true → config.allowedCategories ≠ [] →
      market.category ∉ config.allowedCategories →
      channelPassLoop sess message market [config] = []) ∧
    (config.feedEnabled = true →
      (config.allowedCategories = [] ∨
        market.category ∈ config.allowedCategories) →
      channelTargets (channelPassLoop sess message market [config]) =
        [config.channelID]) ∧
    (∀ l1 l2, channelPassLoop sess message market (l1 ++ l2) =
      channelPassLoop sess message market l1 ++
        channelPassLoop sess message market l2) := by
  refine ⟨fun hf => ?_, fun hf hne hnm => ?_, fun hf helig => ?_,
    fun l1 l2 => ?_⟩
  · simp [channelPassLoop, hf]
  · have hcat : (config.allowedCategories.any
        (fun category => category == market.category)) = false := by
      simp only [List.any_eq_false, beq_iff_eq]
      exact fun a ha e => hnm (e ▸ ha)
    have hlen : 0 < config.allowedCategories.length :=
      List.length_pos.mpr hne
    simp [channelPassLoop, hf, hcat, hlen]
  · rcases helig with hemp | hmem
    · cases hsend : sess.channelSend config.channelID message <;>
        simp [channelPassLoop, channelTargets, hf, hemp, hsend]
    · have hcat : (config.allowedCategories.any
          (fun category => category == market.category)) = true := by
        simp only [List.any_eq_true, beq_iff_eq]
        exact ⟨market.category, hmem, rfl⟩
      cases hsend : sess.channelSend config.channelID message <;>
        simp [channelPassLoop, channelTargets, hf, hcat, hsend]
  · induction l1 with
    | nil => rfl
    | cons c rest ih =>
      cases hf : c.feedEnabled with
      | false => simp [channelPassLoop, hf, ih]
      | true =>
        cases hskip : decide (0 < c.allowedCategories.length) &&
            !(c.allowedCategories.any
              (fun category => category == market.category)) with
        | true => simp [channelPassLoop, hf, hskip, ih]
        | false =>
          cases hsend : sess.channelSend c.channelID message <;>
            simp [channelPassLoop, hf, hskip, hsend, ih]

/-- A concrete session whose delivery to channel "bad" fails and whose DM
creation always succeeds; used by witnesses. -/
def sampleSession : Session :=
  { channelSend := fun channelID _ => channelID != "bad",
    userChannelCreate := fun userID => some ("dm-" ++ userID) }

/-- A concrete market in category "sports"; used by witnesses. -/
def sampleMarket : Market :=
  { id := "m1", title := "T", description := "D", outcomes := ["Yes", "No"],
    percentages := [60, 40], category := "sports", creator := "c1",
    volume := 1000, startTime := 0, endTime := 24 * 3600, status := "active",
    resolvedOutcome := "", link := "https://coral.markets/market/m1" }

/-- C4 witness: a disabled-feed config is skipped, a politics-only config is
skipped for the sports market, and a no-restriction config receives the
delivery attempt. -/
theorem channelPass_filter_cases_witness :
    channelPassLoop sampleSession "msg" sampleMarket
      [{ channelID := "off", feedEnabled := false, allowedCategories := [],
         frequencyMode := "medium", lastUpdateTimestamp := 0 }] = [] ∧
    channelPassLoop sampleSession "msg" sampleMarket
      [{ channelID := "pol", feedEnabled := true,
         allowedCategories := ["politics"], frequencyMode := "medium",
         lastUpdateTimestamp := 0 }] = [] ∧
    channelTargets (channelPassLoop sampleSession "msg" sampleMarket
      [{ channelID := "all", feedEnabled := true, allowedCategories := [],
         frequencyMode := "medium", lastUpdateTimestamp := 0 }]) = ["all"] :=
  ⟨(channelPass_filter_cases sampleSession "msg" sampleMarket
      { channelID := "off", feedEnabled := false, allowedCategories := [],
        frequencyMode := "medium", lastUpdateTimestamp := 0 }).1 rfl,
   (channelPass_filter_cases sampleSession "msg" sampleMarket
      { channelID := "pol", feedEnabled := true,
        allowedCategories := ["politics"], frequencyMode := "medium",
        lastUpdateTimestamp := 0 }).2.1 rfl (by decide) (by decide),
   (channelPass_filter_cases sampleSession "msg" sampleMarket
      { channelID := "all", feedEnabled := true, allowedCategories := [],
        frequencyMode := "medium", lastUpdateTimestamp := 0 }).2.2.1 rfl
      (Or.inl rfl)⟩

/-- One lowercase hex digit for a value below 16 (the `encoding/hex`
alphabet "0123456789abcdef"). -/
def hexDigit (n : Nat) : Char :=
  if n < 10 then Char.ofNat (48 + n) else Char.ofNat (87 + n)

/-- The character stream of `hex.EncodeToString`: two digits per byte, high
nibble first. -/
def hexChars : List Nat → List Char
  | [] => []
  | b :: rest => hexDigit (b / 16) :: hexDigit (b % 16) :: hexChars rest

/-- `hex.EncodeToString` over a byte list. -/
def hexEncode (bytes : List Nat) : String := String.mk (hexChars bytes)

/-- `generateID` (`subscription_service.go`): hex-encode 12 random bytes;
the outcome of the `crypto/rand.Read` call is the `entropy` argument, and
a failed read is propagated as the error. -/
def generateID (entropy : Except String (List Nat)) : Except String String :=
  match entropy with
  | .error e => .error e
  | .ok randomBytes => .ok (hexEncode randomBytes)

/-- `RegisterWebhook` (`subscription_service.go`): generate the id
("wh_" + hex suffix), stamp the creation time, default the frequency to
"medium" when unset, persist, and return the stored record; a generation
failure is surfaced to the caller with the repository untouched. -/
def RegisterWebhook (st : RepoState) (entropy : Except String (List Nat))
    (now : Int) (registration : WebhookRegistration) :
    RepoState × Except String WebhookRegistration :=
  match generateID entropy with
  | .error e => (st, .error ("failed to generate id: " ++ e))
  | .ok idBytes =>
    let reg1 := { registration with id := "wh_" ++ idBytes, createdAt := now }
    let reg2 :=
      if reg1.frequency = "" then { reg1 with frequency := "medium" }
      else reg1
    match Repository.SaveWebhookRegistration st reg2 with
    | .error e => (st, .error ("failed to save webhook registration: " ++ e))
    | .ok st2 => (st2, .ok reg2)

/-- `UnregisterWebhook`: delegates to the repository delete. -/
def UnregisterWebhook (st : RepoState) (id : String) :
    Except String RepoState :=
  Repository.DeleteWebhookRegistration st id

/-- `ListWebhookRegistrations`: delegates to the repository listing. -/
def ListWebhookRegistrations (st : RepoState) :
    Except String (List WebhookRegistration) :=
  Repository.GetAllWebhookRegistrations st

theorem hexDigit_inj :
    ∀ a, a < 16 → ∀ b, b < 16 → hexDigit a = hexDigit b → a = b := by
  decide

theorem hexPair_inj (a b : Nat) (ha : a < 256) (hb : b < 256)
    (h1 : hexDigit (a / 16) = hexDigit (b / 16))
    (h2 : hexDigit (a % 16) = hexDigit (b % 16)) : a = b := by
  have d1 : a / 16 = b / 16 :=
    hexDigit_inj (a / 16) (by omega) (b / 16) (by omega) h1
  have d2 : a % 16 = b % 16 :=
    hexDigit_inj (a % 16) (by omega) (b % 16) (by omega) h2
  omega

theorem hexChars_inj : ∀ (l1 l2 : List Nat), (∀ b ∈ l1, b < 256) →
    (∀ b ∈ l2, b < 256) → l1.length = l2.length →
    hexChars l1 = hexChars l2 → l1 = l2 := by
  intro l1
  induction l1 with
  | nil =>
    intro l2 _ _ hlen _
    cases l2 with
    | nil => rfl
    | cons b rest2 => simp at hlen
  | cons a rest ih =>
    intro l2 hv1 hv2 hlen heq
    cases l2 with
    | nil => simp at hlen
    | cons b rest2 =>
      simp only [hexChars, List.cons.injEq] at heq
      obtain ⟨e1, e2, e3⟩ := heq
      have ha : a < 256 := hv1 a (List.mem_cons_self a rest)
      have hb : b < 256 := hv2 b (List.mem_cons_self b rest2)
      have hab : a = b := hexPair_inj a b ha hb e1 e2
      have htl : rest = rest2 :=
        ih rest2 (fun x hx => hv1 x (List.mem_cons_of_mem a hx))
          (fun x hx => hv2 x (List.mem_cons_of_mem b hx))
          (by simpa using hlen) e3
      rw [hab, htl]

theorem string_append_left_cancel (u s t : String) (h : u ++ s = u ++ t) :
    s = t := by
  cases u with
  | mk lu =>
    cases s with
    | mk ls =>
      cases t with
      | mk lt =>
        have h2 : lu ++ ls = lu ++ lt := congrArg String.data h
        have h3 : ls = lt := List.append_cancel_left h2
        rw [h3]

theorem hexEncode_inj (bs1 bs2 : List Nat) (h1 : ∀ b ∈ bs1, b < 256)
    (h2 : ∀ b ∈ bs2, b < 256) (hlen : bs1.length = bs2.length)
    (he : hexEncode bs1 = hexEncode bs2) : bs1 = bs2 :=
  hexChars_inj bs1 bs2 h1 h2 hlen (congrArg String.data he)

theorem registerWebhook_ok_id (st : RepoState) (bs : List Nat) (n : Int)
    (r reg : WebhookRegistration)
    (h : (RegisterWebhook st (.ok bs) n r).2 = .ok reg) :
    reg.id = "wh_" ++ hexEncode bs := by
  unfold RegisterWebhook generateID at h
  by_cases hf : r.frequency = ""
  · simp [hf, Repository.SaveWebhookRegistration] at h
    subst h
    rfl
  · simp [hf, Repository.SaveWebhookRegistration] at h
    subst h
    rfl

theorem map_eraseA (key : String) :
    ∀ (l : List (String × WebhookRegistration)),
    (∀ p ∈ l, p.2.id = p.1) →
    (eraseA l key).map (fun p => p.2) =
      (l.map (fun p => p.2)).filter (fun reg => reg.id != key) := by
  intro l
  induction l with
  | nil => intro _; rfl
  | cons p rest ih =>
    intro hwf
    obtain ⟨k, r⟩ := p
    have hr : r.id = k := hwf (k, r) (List.mem_cons_self _ _)
    have hrest : ∀ q ∈ rest, q.2.id = q.1 :=
      fun q hq => hwf q (List.mem_cons_of_mem _ hq)
    have ih2 := ih hrest
    simp only [eraseA] at ih2
    by_cases hk : k = key
    · simp [eraseA, List.filter_cons, hk, hr, ih2]
    · simp [eraseA, List.filter_cons, hk, hr, bne_iff_ne, ih2]

/-- C6: when the entropy source fails, `RegisterWebhook` returns the error
to the caller and the repository state is unchanged; when it succeeds, the
record it persists and returns carries the id "wh_" + hex suffix, the
stamped creation time, and frequency "medium" whenever the input frequency
was unset — and the success case always happens for a successful read. -/
theorem registerWebhook_spec (st : RepoState) (now : Int)
    (registration : WebhookRegistration) (e : String) (bytes : List Nat) :
    (RegisterWebhook st (.error e) now registration =
      (st, .error ("failed to generate id: " ++ e))) ∧
    (∀ st2 reg2,
      RegisterWebhook st (.ok bytes) now registration = (st2, .ok reg2) →
      reg2.id = "wh_" ++ hexEncode bytes ∧ reg2.createdAt = now ∧
      (registration.frequency = "" → reg2.frequency = "medium") ∧
      (registration.frequency ≠ "" →
        reg2.frequency = registration.frequency) ∧
      lookupA st2.webhooks reg2.id = some reg2) ∧
    (∃ st2 reg2,
      RegisterWebhook st (.ok bytes) now registration = (st2, .ok reg2)) := by
  refine ⟨rfl, fun st2 reg2 h => ?_, ?_⟩
  · unfold RegisterWebhook generateID at h
    by_cases hf : registration.frequency = ""
    · simp [hf, Repository.SaveWebhookRegistration] at h
      obtain ⟨hst, hreg⟩ := h
      subst hst
      subst hreg
      refine ⟨rfl, rfl, fun _ => rfl, fun hne => absurd hf hne, ?_⟩
      exact lookupA_insertA_self st.webhooks _ _
    · simp [hf, Repository.SaveWebhookRegistration] at h
      obtain ⟨hst, hreg⟩ := h
      subst hst
      subst hreg
      refine ⟨rfl, rfl, fun hemp => absurd hemp hf, fun _ => rfl, ?_⟩
      exact lookupA_insertA_self st.webhooks _ _
  · by_cases hf : registration.frequency = ""
    · have hproof : RegisterWebhook st (.ok bytes) now registration = ({ st with webhooks := insertA st.webhooks ("wh_" ++ hexEncode bytes) { registration with id := "wh_" ++ hexEncode bytes, createdAt := now, frequency := "medium" } }, .ok { registration with id := "wh_" ++ hexEncode bytes, createdAt := now, frequency := "medium" }) := by
        unfold RegisterWebhook generateID
        simp [hf, Repository.SaveWebhookRegistration]
      exact ⟨_, _, hproof⟩
    · have hproof : RegisterWebhook st (.ok bytes) now registration = ({ st with webhooks := insertA st.webhooks ("wh_" ++ hexEncode bytes) { registration with id := "wh_" ++ hexEncode bytes, createdAt := now } }, .ok { registration with id := "wh_" ++ hexEncode bytes, createdAt := now }) := by
        unfold RegisterWebhook generateID
        simp [hf, Repository.SaveWebhookRegistration]
      exact ⟨_, _, hproof⟩

/-- A concrete webhook registration input with unset frequency; used by
witnesses. -/
def sampleRegistration : WebhookRegistration :=
  { id := "", channelID := "chan1", webhookURL := "https://example.com/hook",
    events := ["new_market"], frequency := "", allowedCategories := [],
    createdAt := 0 }

/-- The record stored for `sampleRegistration` under entropy bytes [0]. -/
def sampleRegOutA : WebhookRegistration :=
  { id := "wh_" ++ hexEncode [0], channelID := "chan1",
    webhookURL := "https://example.com/hook", events := ["new_market"],
    frequency := "medium", allowedCategories := [], createdAt := 7 }

/-- The repository state holding exactly `sampleRegOutA`. -/
def sampleStOutA : RepoState :=
  { subscriptions := [], channels := [],
    webhooks := [("wh_" ++ hexEncode [0], sampleRegOutA)] }

/-- C6 witness: on the empty repository, a failed read surfaces the error
with the state unchanged, and a successful read with bytes [0] persists
and returns the defaulted record. -/
theorem registerWebhook_spec_witness :
    RegisterWebhook NewInMemorySubscriptionRepository (.error "boom") 7
        sampleRegistration =
      (NewInMemorySubscriptionRepository,
        .error ("failed to generate id: " ++ "boom")) ∧
    (sampleRegOutA.id = "wh_" ++ hexEncode [0] ∧ sampleRegOutA.createdAt = 7 ∧
      (sampleRegistration.frequency = "" →
        sampleRegOutA.frequency = "medium") ∧
      (sampleRegistration.frequency ≠ "" →
        sampleRegOutA.frequency = sampleRegistration.frequency) ∧
      lookupA sampleStOutA.webhooks sampleRegOutA.id = some sampleRegOutA) :=
  ⟨(registerWebhook_spec NewInMemorySubscriptionRepository 7
      sampleRegistration "boom" [0]).1,
   (registerWebhook_spec NewInMemorySubscriptionRepository 7
      sampleRegistration "boom" [0]).2.1 sampleStOutA sampleRegOutA rfl⟩

/-- C9: two registrations whose entropy draws differ (same byte count,
bytes below 256) receive distinct generated identifiers; and on any state
whose webhook map is keyed by the registrations' own ids (as every state
built through `SaveWebhookRegistration` is), unregistering an id removes
exactly that registration from subsequent listings, leaving every other
stored registration in place unchanged. -/
theorem webhook_register_unregister_exact (st st' : RepoState) (n1 n2 : Int)
    (r1 r2 : WebhookRegistration) (bs1 bs2 : List Nat) :
    (bs1.length = bs2.length → (∀ b ∈ bs1, b < 256) →
      (∀ b ∈ bs2, b < 256) → bs1 ≠ bs2 → ∀ reg1 reg2,
      (RegisterWebhook st (.ok bs1) n1 r1).2 = .ok reg1 →
      (RegisterWebhook st' (.ok bs2) n2 r2).2 = .ok reg2 →
      reg1.id ≠ reg2.id) ∧
    ((∀ p ∈ st.webhooks, p.2.id = p.1) → ∀ targetID st2,
      UnregisterWebhook st targetID = .ok st2 →
      ListWebhookRegistrations st2 =
        .ok ((st.webhooks.map (fun p => p.2)).filter
          (fun reg => reg.id != targetID))) := by
  constructor
  · intro hlen hv1 hv2 hne reg1 reg2 h1 h2
    have hid1 := registerWebhook_ok_id st bs1 n1 r1 reg1 h1
    have hid2 := registerWebhook_ok_id st' bs2 n2 r2 reg2 h2
    rw [hid1, hid2]
    intro he
    have he2 : hexEncode bs1 = hexEncode bs2 :=
      string_append_left_cancel "wh_" _ _ he
    exact hne (hexEncode_inj bs1 bs2 hv1 hv2 hlen he2)
  · intro hwf targetID st2 hdel
    unfold UnregisterWebhook Repository.DeleteWebhookRegistration at hdel
    simp only [Except.ok.injEq] at hdel
    subst hdel
    unfold ListWebhookRegistrations Repository.GetAllWebhookRegistrations
    simp only [Except.ok.injEq]
    exact map_eraseA targetID st.webhooks hwf

/-- The record stored for `sampleRegistration` under entropy bytes [1]. -/
def sampleRegOutB : WebhookRegistration :=
  { id := "wh_" ++ hexEncode [1], channelID := "chan1",
    webhookURL := "https://example.com/hook", events := ["new_market"],
    frequency := "medium", allowedCategories := [], createdAt := 0 }

/-- A repository state holding the two registrations of the witness. -/
def sampleStTwo : RepoState :=
  { subscriptions := [], channels := [],
    webhooks := [("wh_" ++ hexEncode [0], sampleRegOutA),
                 ("wh_" ++ hexEncode [1], sampleRegOutB)] }

/-- The state of `sampleStTwo` after unregistering the first id. -/
def sampleStOne : RepoState :=
  { subscriptions := [], channels := [],
    webhooks := [("wh_" ++ hexEncode [1], sampleRegOutB)] }

/-- C9 witness: registering with entropy [0] and with entropy [1] yields
distinct ids, and unregistering the first id from the two-registration
state removes exactly that registration from the listing. -/
theorem webhook_register_unregister_exact_witness :
    sampleRegOutA.id ≠ sampleRegOutB.id ∧
    ListWebhookRegistrations sampleStOne =
      .ok ((sampleStTwo.webhooks.map (fun p => p.2)).filter
        (fun reg => reg.id != sampleRegOutA.id)) :=
  ⟨(webhook_register_unregister_exact NewInMemorySubscriptionRepository
      NewInMemorySubscriptionRepository 7 0 sampleRegistration
      sampleRegistration [0] [1]).1 rfl (by decide) (by decide) (by decide)
      sampleRegOutA sampleRegOutB rfl rfl,
   (webhook_register_unregister_exact sampleStTwo sampleStTwo 7 0
      sampleRegistration sampleRegistration [0] [1]).2 (by decide)
      sampleRegOutA.id sampleStOne rfl⟩

/-- Go fmt "%.1f": one decimal digit, rounded to nearest (the float64 tie
behavior is immaterial for the verified statements, which only use exact
one-decimal values).  For q = n/d the scaled rounded value
floor(|q|*10 + 1/2) is computed as (20*|n| + d) / (2*d). -/
def fmt1 (q : Rat) : String :=
  let sign := if q.num < 0 then "-" else ""
  let n := q.num.natAbs
  let d := q.den
  let m := (20 * n + d) / (2 * d)
  sign ++ toString (m / 10) ++ "." ++ toString (m % 10)

/-- Go fmt "%.2f": two decimal digits, rounded to nearest; for q = n/d the
scaled rounded value floor(|q|*100 + 1/2) is (200*|n| + d) / (2*d). -/
def fmt2 (q : Rat) : String :=
  let sign := if q.num < 0 then "-" else ""
  let n := q.num.natAbs
  let d := q.den
  let m := (200 * n + d) / (2 * d)
  let cents := m % 100
  sign ++ toString (m / 100) ++ "." ++
    (if cents < 10 then "0" ++ toString cents else toString cents)

/-- Go `time.Duration.String` restricted to whole-second durations: "0s"
for zero, otherwise hours, minutes, seconds with larger all-zero units
omitted (e.g. "24h0m0s", "30m0s", "45s"), sign prefix for negatives. -/
def durationString (d : Int) : String :=
  if d = 0 then "0s"
  else
    let sign := if d < 0 then "-" else ""
    let t := d.natAbs
    let h := t / 3600
    let m := t % 3600 / 60
    let s := t % 60
    sign ++ (if 0 < h then toString h ++ "h" else "") ++
      (if 0 < h ∨ 0 < m then toString m ++ "m" else "") ++
      toString s ++ "s"

/-- One line of the outcome listing:
`fmt.Sprintf("- %s (%.1f%%)\n", outcome, percentage)`. -/
def outcomeLine (outcome : String) (percentage : Rat) : String :=
  "- " ++ outcome ++ " (" ++ fmt1 percentage ++ "%)\n"

/-- The outcome loop shared by the announcement and update renderers
(`market_service.go`): for the outcome at index i, use the percentage at
index i when present and 0.0 otherwise, appending one line per outcome. -/
def outcomeLoop (percentages : List Rat) : Nat → List String → String
  | _, [] => ""
  | i, outcome :: rest =>
    outcomeLine outcome (percentages.getD i 0) ++
      outcomeLoop percentages (i + 1) rest

/-- The outcome section of a market's message: the loop started at index
0 over all outcomes. -/
def outcomeSection (market : Market) : String :=
  outcomeLoop market.percentages 0 market.outcomes

/-- The header of `CreateMarketAnnouncement` (title, description, volume to
two decimals, time left until the end time). -/
def announcementHeader (now : Int) (market : Market) : String :=
  "🎉 **NEW MARKET ALERT** 🎉\n\n**" ++ market.title ++ "**\n" ++
    market.description ++ "\n\n📊 Volume: $" ++ fmt2 market.volume ++
    "\n⏰ Time Left: " ++ durationString (market.endTime - now) ++
    "\n\n**Outcomes:**\n"

/-- The header of `CreateMarketUpdateMessage`. -/
def updateHeader (now : Int) (market : Market) : String :=
  "📈 **MARKET UPDATE** 📈\n\n**" ++ market.title ++
    "**\n\n📊 Volume: $" ++ fmt2 market.volume ++
    "\n⏰ Time Left: " ++ durationString (market.endTime - now) ++
    "\n\n**Current Probabilities:**\n"

/-- The footer shared by both renderers (the market link). -/
def messageFooter (market : Market) : String :=
  "\n🔗 [View on Coral Markets](" ++ market.link ++ ")"

/-- `CreateMarketAnnouncement` (`market_service.go`): header, outcome
loop, footer. -/
def CreateMarketAnnouncement (now : Int) (market : Market) : String :=
  announcementHeader now market ++ outcomeSection market ++
    messageFooter market

/-- `CreateMarketUpdateMessage` (`market_service.go`): header, outcome
loop, footer. -/
def CreateMarketUpdateMessage (now : Int) (market : Market) : String :=
  updateHeader now market ++ outcomeSection market ++ messageFooter market

theorem outcomeLoop_split (ps : List Rat) :
    ∀ (outcomes : List String) (i j : Nat) (h : j < outcomes.length),
    outcomeLoop ps i outcomes =
      outcomeLoop ps i (outcomes.take j) ++
        (outcomeLine (outcomes.get ⟨j, h⟩) (ps.getD (i + j) 0) ++
          outcomeLoop ps (i + (j + 1)) (outcomes.drop (j + 1))) := by
  intro outcomes
  induction outcomes with
  | nil =>
    intro i j h
    simp at h
  | cons a rest ih =>
    intro i j h
    cases j with
    | zero =>
      show outcomeLoop ps i (a :: rest) = outcomeLoop ps i [] ++ _
      simp only [outcomeLoop, List.get, List.drop_succ_cons, List.drop_zero,
        Nat.add_zero]
      rfl
    | succ j2 =>
      have h2 : j2 < rest.length := by simpa using h
      have ihr := ih (i + 1) j2 h2
      have e1 : i + 1 + j2 = i + (j2 + 1) := by omega
      have e2 : i + 1 + (j2 + 1) = i + (j2 + 1 + 1) := by omega
      rw [e1, e2] at ihr
      simp only [outcomeLoop, List.take_succ_cons, List.drop_succ_cons,
        List.get_cons_succ]
      rw [ihr, String.append_assoc]

/-- C8: both renderers emit, for the outcome at each index i, the outcome
name with the percentage at index i when the percentages list has an entry
there and 0.0 otherwise, formatted to one decimal (`outcomeLine`); both
renderers are total functions, so malformed input (such as an empty
percentages list) never fails rendering. -/
theorem renderer_outcome_percentages (now : Int) (market : Market) (i : Nat)
    (h : i < market.outcomes.length) :
    (CreateMarketAnnouncement now market =
      announcementHeader now market ++
        (outcomeLoop market.percentages 0 (market.outcomes.take i) ++
          (outcomeLine (market.outcomes.get ⟨i, h⟩)
              (market.percentages.getD i 0) ++
            (outcomeLoop market.percentages (i + 1)
                (market.outcomes.drop (i + 1)) ++
              messageFooter market)))) ∧
    (CreateMarketUpdateMessage now market =
      updateHeader now market ++
        (outcomeLoop market.percentages 0 (market.outcomes.take i) ++
          (outcomeLine (market.outcomes.get ⟨i, h⟩)
              (market.percentages.getD i 0) ++
            (outcomeLoop market.percentages (i + 1)
                (market.outcomes.drop (i + 1)) ++
              messageFooter market)))) ∧
    (∀ hp : i < market.percentages.length,
      market.percentages.getD i 0 = market.percentages.get ⟨i, hp⟩) ∧
    (market.percentages.length ≤ i → market.percentages.getD i 0 = 0) := by
  have hsplit := outcomeLoop_split market.percentages market.outcomes 0 i h
  rw [Nat.zero_add] at hsplit
  have hz : (0 : Nat) + (i + 1) = i + 1 := Nat.zero_add _
  rw [hz] at hsplit
  refine ⟨?_, ?_, fun hp => ?_, fun hge => ?_⟩
  · unfold CreateMarketAnnouncement outcomeSection
    rw [hsplit]
    simp [String.append_assoc]
  · unfold CreateMarketUpdateMessage outcomeSection
    rw [hsplit]
    simp [String.append_assoc]
  · simp [List.getD_eq_getElem, hp]
  · simp [List.getD_eq_getElem?_getD, List.getElem?_eq_none hge]

/-- The sample market with its percentages list removed. -/
def sampleMarketNoPct : Market :=
  { id := "m1", title := "T", description := "D", outcomes := ["Yes", "No"],
    percentages := [], category := "sports", creator := "c1",
    volume := 1000, startTime := 0, endTime := 24 * 3600, status := "active",
    resolvedOutcome := "", link := "https://coral.markets/market/m1" }

/-- C8 witness: for the concrete market with outcomes ["Yes","No"] and
percentages [60,40] the rendered lines carry 60.0 and 40.0, and with an
empty percentages list the first line carries 0.0; the full announcement
and update messages decompose around those lines. -/
theorem renderer_outcome_percentages_witness :
    outcomeLine "Yes" (sampleMarket.percentages.getD 0 0) =
      "- Yes (60.0%)\n" ∧
    outcomeLine "No" (sampleMarket.percentages.getD 1 0) =
      "- No (40.0%)\n" ∧
    outcomeLine "Yes" (sampleMarketNoPct.percentages.getD 0 0) =
      "- Yes (0.0%)\n" ∧
    CreateMarketAnnouncement 0 sampleMarket =
      announcementHeader 0 sampleMarket ++
        (outcomeLoop sampleMarket.percentages 0 [] ++
          (outcomeLine "Yes" 60 ++
            (outcomeLoop sampleMarket.percentages 1 ["No"] ++
              messageFooter sampleMarket))) ∧
    CreateMarketUpdateMessage 0 sampleMarketNoPct =
      updateHeader 0 sampleMarketNoPct ++
        (outcomeLoop sampleMarketNoPct.percentages 0 [] ++
          (outcomeLine "Yes" 0 ++
            (outcomeLoop sampleMarketNoPct.percentages 1 ["No"] ++
              messageFooter sampleMarketNoPct))) :=
  ⟨by decide, by decide, by decide,
   (renderer_outcome_percentages 0 sampleMarket 0 (by decide)).1,
   (renderer_outcome_percentages 0 sampleMarketNoPct 0 (by decide)).2.1⟩
